import Mathlib

/-!
Verification development for the medical-policy claim-assistant backend.

The repository's executable text helpers (`parse_total_amount`,
`sum_non_payables`), the policy cache (`get_policy`) and the chat driver
(`chat_with_history`) from `backend/main.py` are shallowly embedded below.
Python's `re` usage is embedded as explicit character-list scanners that
implement exactly the regular expressions appearing in the source
(`net\s*payable`, `amount\s*payable`, `grand\s*total`, `\btotal\b`,
`\b\d+(?:\.\d{1,2})?\b`, and the interpolated `\b{kw}\b`), with Python's
`\w` restricted to its ASCII meaning (all inputs reasoned about are ASCII).
Money amounts are modelled as rationals: every numeric token the source can
extract has at most two decimal digits, so `float` conversion is exact on
the values any theorem below touches.

The adjudication and timeline rules have no executable implementation in
the repository (they exist only as natural-language LLM prompt text in
`backend/prompts.py` / `backend/main.py`); they are modelled from the spec,
as marked on each such definition.
-/

/-- ASCII word character, Python's `\w` on ASCII text: letters, digits, `_`. -/
def isWordChar (c : Char) : Bool := c.isAlphanum || c = '_'

/-- Python `\s` (ASCII part): space, tab, newline, carriage return, vertical tab, form feed. -/
def isPySpace (c : Char) : Bool :=
  c = ' ' || c = '\t' || c = '\n' || c = '\r' || c = '\x0b' || c = '\x0c'

/-- Line-break characters recognised by Python's `str.splitlines`. -/
def isLineBreakChar (c : Char) : Bool :=
  c = '\n' || c = '\r' || c = '\x0b' || c = '\x0c' ||
  c = '\x1c' || c = '\x1d' || c = '\x1e' || c = '\x85' ||
  c = '\u2028' || c = '\u2029'

/-- Worker for `pySplitlines`; `acc` is the current line, reversed. -/
def splitlinesAux : List Char → List Char → List (List Char)
  | [], acc => if acc.isEmpty then [] else [acc.reverse]
  | '\r' :: '\n' :: rest, acc => acc.reverse :: splitlinesAux rest []
  | c :: rest, acc =>
    if isLineBreakChar c then acc.reverse :: splitlinesAux rest []
    else splitlinesAux rest (c :: acc)

/-- Python `str.splitlines`: split at line breaks (with `\r\n` as one break),
no trailing empty line for a terminal break. -/
def pySplitlines (s : String) : List String :=
  (splitlinesAux s.data []).map List.asString

/-- True if the optional character is absent or a non-word character; this is
how `\b` sees a position's neighbour (out-of-bounds counts as non-word). -/
def nonWordOpt (o : Option Char) : Bool := !(o.elim false isWordChar)

/-- Strip the literal character list `p` from the front of `s`. -/
def dropPref : List Char → List Char → Option (List Char)
  | [], s => some s
  | _ :: _, [] => none
  | p :: ps, c :: cs => if c = p then dropPref ps cs else none

/-- Run a position predicate at every suffix of the text, tracking the
character just before the position (as Python `re.search` scans positions,
including the end-of-string position). -/
def scanPrev (f : Option Char → List Char → Bool) : Option Char → List Char → Bool
  | prev, [] => f prev []
  | prev, c :: rest => f prev (c :: rest) || scanPrev f (some c) rest

/-- Match `w1` then `\s*` then `w2` starting at this position (the shape of
the source's `net\s*payable`, `amount\s*payable`, `grand\s*total` patterns:
plain substring search, no word anchors). -/
def pairAt (w1 w2 : List Char) (s : List Char) : Bool :=
  match dropPref w1 s with
  | some r => (dropPref w2 (r.dropWhile isPySpace)).isSome
  | none => false

/-- `re.search(w1 ++ r'\s*' ++ w2, line)` on a lowercased line. -/
def containsPair (w1 w2 : String) (ln : List Char) : Bool :=
  scanPrev (fun _ s => pairAt w1.data w2.data s) none ln

/-- Match `\btotal\b` at this position (the only word-anchored pattern of
`parse_total_amount`). -/
def wordTotalAt (prev : Option Char) (s : List Char) : Bool :=
  nonWordOpt prev &&
    match dropPref "total".data s with
    | some r => nonWordOpt r.head?
    | none => false

/-- `re.search(r'\btotal\b', line)` on a lowercased line. -/
def containsWordTotal (ln : List Char) : Bool := scanPrev wordTotalAt none ln

/-- One attempt of `\b\d+(?:\.\d{1,2})?\b` at a position already known to
start with a digit after a word boundary, with the regex engine's greedy
then backtracking behaviour: try two fraction digits, then one, then no
fraction; the final `\b` must hold. Returns the token and the rest. -/
def tryNum (s : List Char) : Option (List Char × List Char) :=
  let ip := s.takeWhile Char.isDigit
  let r1 := s.dropWhile Char.isDigit
  if ip.isEmpty then none else
  match r1 with
  | '.' :: d1 :: d2 :: rest =>
    if d1.isDigit && d2.isDigit && nonWordOpt rest.head? then
      some (ip ++ ['.', d1, d2], rest)
    else if d1.isDigit && !(isWordChar d2) then
      some (ip ++ ['.', d1], d2 :: rest)
    else
      some (ip, r1)
  | ['.', d1] =>
    if d1.isDigit then some (ip ++ ['.', d1], []) else some (ip, r1)
  | _ => if nonWordOpt r1.head? then some (ip, r1) else none

/-- Worker for `findNums`; fuel bounds the recursion (initialised to the
text length, which never runs out since a token consumes at least one
character). After a token, the previous character is always a digit, so the
constant `'0'` stands for it. -/
def findNumsAux : Nat → Option Char → List Char → List (List Char)
  | 0, _, _ => []
  | _ + 1, _, [] => []
  | fuel + 1, prev, c :: rest =>
    if nonWordOpt prev && c.isDigit then
      match tryNum (c :: rest) with
      | some (tok, r) => tok :: findNumsAux fuel (some '0') r
      | none => findNumsAux fuel (some c) rest
    else findNumsAux fuel (some c) rest

/-- `re.findall(r'\b\d+(?:\.\d{1,2})?\b', line)`: all numeric tokens, left
to right, non-overlapping. -/
def findNums (s : List Char) : List (List Char) := findNumsAux s.length none s

/-- Value of a digit string. -/
def digitsToNat (l : List Char) : Nat :=
  l.foldl (fun a c => a * 10 + (c.toNat - '0'.toNat)) 0

/-- Value of a matched numeric token (digits with an optional `.` and one or
two fraction digits), as an exact rational `int + frac / 10^len`, built with
`mkRat` so that the kernel can evaluate it; Python's `float` of such a token
agrees with it on every token with at most two fraction digits that the
theorems below evaluate. -/
def tokToRat (tok : List Char) : ℚ :=
  let ip := tok.takeWhile Char.isDigit
  let fp := (tok.dropWhile Char.isDigit).drop 1
  mkRat (digitsToNat ip * Nat.pow 10 fp.length + digitsToNat fp) (Nat.pow 10 fp.length)

/-- `float(vals[-1])` applied to the token list of a line: the last numeric
token's value, if any. -/
def lastNum (ln : List Char) : Option ℚ := ((findNums ln).getLast?).map tokToRat

/-- The four patterns of `parse_total_amount`, in the source's priority
order: `net\s*payable`, `amount\s*payable`, `grand\s*total`, `\btotal\b`. -/
def totalPatterns : List (List Char → Bool) :=
  [containsPair "net" "payable", containsPair "amount" "payable",
   containsPair "grand" "total", containsWordTotal]

/-- Embedding of `parse_total_amount` (backend/main.py): for each pattern in
priority order, walk the lines from the last to the first; on the first line
that matches the pattern and carries a numeric token, return the last token's
value. Case-insensitivity is realised by lowercasing lines (ASCII); digits
and word boundaries are unaffected. -/
def parse_total_amount (text : String) : Option ℚ :=
  let lines := (pySplitlines text).map (fun s => s.data.map Char.toLower)
  totalPatterns.findSome? fun pat =>
    lines.reverse.findSome? fun ln => if pat ln then lastNum ln else none

/-- Match the two-word pattern as the claim's words demand: `w1` and `w2`
each as a whole word (a word boundary on both sides), separated by optional
whitespace. -/
def wwPairAt (w1 w2 : List Char) (prev : Option Char) (s : List Char) : Bool :=
  nonWordOpt prev &&
    match dropPref w1 s with
    | some r1 =>
      nonWordOpt r1.head? &&
        match dropPref w2 (r1.dropWhile isPySpace) with
        | some r3 => nonWordOpt r3.head?
        | none => false
    | none => false

/-- Whole-word search for a two-word pattern over a lowercased line. -/
def containsWWPair (w1 w2 : String) (ln : List Char) : Bool :=
  scanPrev (wwPairAt w1.data w2.data) none ln

/-- The claim's reading of the four patterns: every pattern whole-word
anchored (the bare `total` one coincides with the source's). -/
def totalPatternsWW : List (List Char → Bool) :=
  [containsWWPair "net" "payable", containsWWPair "amount" "payable",
   containsWWPair "grand" "total", containsWordTotal]

/-- Total-amount extraction as claim C1 states it: same priority, last
matching line, last numeric token, but with whole-word matching for all four
patterns. -/
def parse_total_amount_ww (text : String) : Option ℚ :=
  let lines := (pySplitlines text).map (fun s => s.data.map Char.toLower)
  totalPatternsWW.findSome? fun pat =>
    lines.reverse.findSome? fun ln => if pat ln then lastNum ln else none

/-- The spec's phrasing of the per-pattern search, written positionally: among
the lines matching the pattern and carrying a numeric token, the last
occurrence in the text. -/
def lastMatchingLine (pat : List Char → Bool) (lines : List (List Char)) : Option (List Char) :=
  (lines.filter fun ln => pat ln && !(findNums ln).isEmpty).getLast?

/-- Total-amount extraction restated from the spec's words (priority order
over patterns; per pattern, the last matching line with a number wins; its
last numeric token is the amount), with the matching the source actually
performs. -/
def parse_total_amount_spec (text : String) : Option ℚ :=
  let lines := (pySplitlines text).map (fun s => s.data.map Char.toLower)
  totalPatterns.findSome? fun pat => (lastMatchingLine pat lines).bind lastNum

/-- Kernel-evaluable rational addition; provably equal to `+` on `ℚ`
(whose standard implementation is irreducible) by `qadd_eq`. -/
def qadd (a b : ℚ) : ℚ := mkRat (a.num * b.den + b.num * a.den) (a.den * b.den)

/-- Python `sum` over the amounts of a hit list, on the kernel-evaluable
addition. -/
def qsum (l : List (String × ℚ)) : ℚ := l.foldl (fun a p => qadd a p.2) 0

/-- One token of the regex fragment a keyword is compiled to: a literal
character (already lowercased) or the `.` wildcard. -/
inductive KwTok
  | lit (c : Char)
  | anyc
deriving DecidableEq

/-- Token list for a keyword within the modelled fragment: `.` becomes the
wildcard, every other character a case-insensitive literal. -/
def kwToks (kw : String) : List KwTok :=
  kw.data.map fun c => if c = '.' then KwTok.anyc else KwTok.lit c.toLower

/-- Outcome of Python compiling the interpolated pattern `\b{kw}\b`
(the keyword is spliced into the regex source unescaped). -/
inductive KwClass
  | pat (toks : List KwTok)
  | err
  | unmod
deriving DecidableEq

/-- Paren-balance check: a lone or unmatched parenthesis in the keyword makes
the interpolated regex fail to compile in Python (`re.error`). -/
def parensOk : List Char → Nat → Bool
  | [], n => n = 0
  | '(' :: r, n => parensOk r (n + 1)
  | ')' :: r, n => n > 0 && parensOk r (n - 1)
  | _ :: r, n => parensOk r n

/-- Classify the keyword as Python's `re.compile` sees `\b{kw}\b`: word
characters, spaces and `.` stay in the modelled fragment; with parentheses
added, an unbalanced one is a compile error; everything else (balanced
groups, other metacharacters) is outside the model and no theorem below
touches it. -/
def kwClass (kw : String) : KwClass :=
  if kw.data.all (fun c => isWordChar c || c = ' ' || c = '.') then
    KwClass.pat (kwToks kw)
  else if kw.data.all (fun c => isWordChar c || c = ' ' || c = '.' || c = '(' || c = ')') then
    (if parensOk kw.data 0 then KwClass.unmod else KwClass.err)
  else KwClass.unmod

/-- Match the token list at a position; returns the last consumed character
and the rest (for the trailing `\b`). -/
def toksMatch : List KwTok → Option Char → List Char → Option (Option Char × List Char)
  | [], prev, s => some (prev, s)
  | _ :: _, _, [] => none
  | t :: ts, _, c :: rest =>
    match t with
    | KwTok.lit a => if c.toLower = a then toksMatch ts (some c) rest else none
    | KwTok.anyc => toksMatch ts (some c) rest

/-- Python's `\b`: the two sides of the position disagree on word-ness
(out-of-bounds is non-word). -/
def pyBoundary (a b : Option Char) : Bool := a.elim false isWordChar != b.elim false isWordChar

/-- `\b ++ toks ++ \b` anchored at one position. -/
def kwSearchAt (toks : List KwTok) (prev : Option Char) (s : List Char) : Bool :=
  pyBoundary prev s.head? &&
    match toksMatch toks prev s with
    | some (lastc, rest) => pyBoundary lastc rest.head?
    | none => false

/-- `re.search(rf'\b{kw}\b', line, re.I)` for a keyword in the modelled
fragment. -/
def kwSearch (toks : List KwTok) (ln : List Char) : Bool :=
  scanPrev (kwSearchAt toks) none ln

/-- All hits of one keyword: one item per line the pattern matches that also
carries a numeric token, valued at the line's last numeric token. -/
def npLineHits (kw : String) (toks : List KwTok) (lines : List String) : List (String × ℚ) :=
  lines.filterMap fun ln =>
    if kwSearch toks ln.data then (lastNum ln.data).map fun q => (kw, q) else none

/-- Outcome of `sum_non_payables`: a normal return, a raised `re.error`
(`exc`), or an input outside the modelled regex fragment (`unmod`). -/
inductive NPResult
  | ok (total : ℚ) (items : List (String × ℚ))
  | exc
  | unmod
deriving DecidableEq

/-- Worker outcome for the keyword loop. -/
inductive NPCollect
  | hits (l : List (String × ℚ))
  | exc
  | unmod
deriving DecidableEq

/-- The keyword loop of `sum_non_payables`: keywords in order, each scanning
every line; a keyword whose pattern does not compile raises on its first
`re.search` call, hence only when there is at least one line. -/
def npCollect (lines : List String) : List String → NPCollect
  | [] => NPCollect.hits []
  | kw :: kws =>
    match kwClass kw with
    | KwClass.pat toks =>
      match npCollect lines kws with
      | NPCollect.hits rest => NPCollect.hits (npLineHits kw toks lines ++ rest)
      | NPCollect.exc => NPCollect.exc
      | NPCollect.unmod => NPCollect.unmod
    | KwClass.err => if lines.isEmpty then npCollect lines kws else NPCollect.exc
    | KwClass.unmod => if lines.isEmpty then npCollect lines kws else NPCollect.unmod

/-- Embedding of `sum_non_payables` (backend/main.py): for each keyword,
every line matching `re.search(rf'\b{kw}\b', ln, re.I)` and carrying a
numeric token contributes one item with the line's last numeric token; the
returned total is the sum of all item amounts. -/
def sum_non_payables (text : String) (keywords : List String) : NPResult :=
  let lines := pySplitlines text
  match npCollect lines keywords with
  | NPCollect.hits h => NPResult.ok (qsum h) h
  | NPCollect.exc => NPResult.exc
  | NPCollect.unmod => NPResult.unmod

/-- Whole-word case-insensitive containment of the keyword taken literally,
as claim C2's wording describes the match. -/
def wwKwContains (kw : String) (ln : List Char) : Bool :=
  kwSearch (kw.data.map fun c => KwTok.lit c.toLower) ln

/-- A keyword made of word characters and spaces only (no regex syntax). -/
def literalKw (kw : String) : Bool := kw.data.all fun c => isWordChar c || c = ' '

/-- The items of claim C2 read off the spec: for each keyword in order, one
item per line containing a literal whole-word match and a numeric token. -/
def npSpecItems (text : String) (kws : List String) : List (String × ℚ) :=
  kws.flatMap fun kw => (pySplitlines text).filterMap fun ln =>
    if wwKwContains kw ln.data then (lastNum ln.data).map fun q => (kw, q) else none

/-- A chat message: a role (`system` / `user` / `assistant`) and its text. -/
structure Msg where
  role : String
  content : String
deriving DecidableEq

/-- The `SYSTEM_PROMPT` constant of backend/main.py, abridged to its opening
line: no property below depends on the prompt's wording, only on its role as
the fixed prefix of the system message. -/
def SYSTEM_PROMPT : String := "You are a Health Insurance Claim Assistant."

/-- The system message `chat_with_history` builds: the prompt followed by the
serialized policy, the bill text and the current time. `nowIso` is the value
of the `datetime.now().isoformat()` call the source performs internally;
making it an argument exposes the hidden clock input. -/
def systemMessage (policyJson billText nowIso : String) : String :=
  SYSTEM_PROMPT ++ "\n\nPOLICY:\n" ++ policyJson ++ "\n\nBILL:\n" ++ billText
    ++ "\n\nCURRENT_DATETIME:\n" ++ nowIso ++ "\n"

/-- Embedding of `chat_with_history` (backend/main.py). `invoke` is the LLM
client's reply function; `nowIso` the clock reading (see `systemMessage`);
`policyJson` the `json.dumps(policy)` serialization. The history list is
threaded explicitly: the returned list is the caller's history after the
in-place mutations (install or overwrite the system message at index 0,
append the user message, call the model, append the assistant reply). The
`policy` and `bill_text` arguments are only read, never written. -/
def chat_with_history (invoke : List Msg → String) (history : List Msg)
    (policyJson billText userInput nowIso : String) : String × List Msg :=
  let sys := systemMessage policyJson billText nowIso
  let h1 : List Msg :=
    match history with
    | [] => [⟨"system", sys⟩]
    | m :: rest =>
      if m.role = "system" then ⟨"system", sys⟩ :: rest else ⟨"system", sys⟩ :: m :: rest
  let h2 := h1 ++ [⟨"user", userInput⟩]
  let reply := invoke h2
  (reply, h2 ++ [⟨"assistant", reply⟩])

/-- A model client that replies with the first message's content, used to
exhibit the dependence of the output on the hidden clock reading. -/
def echoHeadClient (ms : List Msg) : String := (ms.head?.map Msg.content).getD ""

/-- Embedding of `load_policy_data` (backend/main.py): read and parse the
policy file; `fs` maps a path to its parsed content, `none` when opening or
parsing raises. The parsed JSON value is abstract (`α`). -/
def load_policy_data {α : Type} (fs : String → Option α) (path : String) : Option α := fs path

/-- Process state of the module-level `_POLICY_CACHE`, with a counter of file
reads performed. -/
structure PolicyState (α : Type) where
  cache : Option α
  reads : Nat
deriving DecidableEq

/-- Embedding of `get_policy` (backend/main.py): return the cached value if
the cache is set, otherwise read the file at `path` and cache the result;
result `none` models the propagated exception of a failed read (the cache
stays empty). -/
def get_policy {α : Type} (fs : String → Option α) (s : PolicyState α) (path : String) :
    Option α × PolicyState α :=
  match s.cache with
  | some d => (some d, s)
  | none =>
    match load_policy_data fs path with
    | some d => (some d, ⟨some d, s.reads + 1⟩)
    | none => (none, ⟨none, s.reads + 1⟩)

/-- Modelled from the spec: the room-type order `shared < single_private <
any_room` (spec section 3, RoomTypeRank); the adjudication rules have no
executable implementation in the repository, only prompt prose
(backend/prompts.py, backend/main.py). -/
inductive RoomType
  | shared
  | single_private
  | any_room
deriving DecidableEq

/-- Modelled from the spec: rank in the room-type hierarchy. -/
def RoomType.rank : RoomType → Nat
  | RoomType.shared => 0
  | RoomType.single_private => 1
  | RoomType.any_room => 2

/-- Modelled from the spec: the room-status verdict of the adjudication. -/
inductive RoomStatus
  | within_cap
  | over_limit
  | unknown
deriving DecidableEq

/-- Modelled from the spec: a Policy (spec section 3); `cap_per_day`,
`co_pay_pct`, `sum_insured` optional, `approval_time` free-form text. -/
structure Policy where
  room_type : RoomType
  cap_per_day : Option ℚ
  proportionate_deduction : Bool
  co_pay_pct : Option ℚ
  sum_insured : Option ℚ
  approval_time : String
  non_payable_keywords : List String

/-- Modelled from the spec: extracted BillFacts (spec section 3); every field
may be unresolved; `billed_type` is `none` when the room type did not
normalize; times are minutes since the epoch. -/
structure BillFacts where
  patient_name : Option String
  total_bill : Option ℚ
  billed_type : Option RoomType
  rate_per_day : Option ℚ
  days : Option ℕ
  fixed_items : List (String × ℚ)
  other_charges : List (String × ℚ)
  non_payables : List (String × ℚ)
  discharge_at : Option ℤ

/-- Modelled from the spec: the AdjudicationResult record (spec section 3);
the `adjustments` narration sequence is omitted, no claim refers to it. -/
structure AdjudicationResult where
  insurer_pays_best : ℚ
  insurer_pays_low : ℚ
  insurer_pays_high : ℚ
  patient_pays : Option ℚ
  room_status : RoomStatus
  extra_room_cost : Option ℚ

/-- Sum of the amounts of a category listing (spec's `sum(mapping)`). -/
def sumAmounts (l : List (String × ℚ)) : ℚ := l.foldl (fun a p => a + p.2) 0

/-- Modelled from the spec, section 4.3 step 1: room rent payable
`min(rate, cap) * days` when all three inputs are resolved. -/
def room_rent_payable (p : Policy) (f : BillFacts) : Option ℚ :=
  match f.rate_per_day, p.cap_per_day, f.days with
  | some r, some c, some d => some (min r c * d)
  | _, _, _ => none

/-- Modelled from the spec, section 4.3 step 2: extra room cost
`max(0, rate - cap) * days` under the same availability condition. -/
def extra_room_cost_of (p : Policy) (f : BillFacts) : Option ℚ :=
  match f.rate_per_day, p.cap_per_day, f.days with
  | some r, some c, some d => some (max 0 (r - c) * d)
  | _, _, _ => none

/-- Modelled from the spec, section 4.3 step 3: `over_limit` when the billed
rate exceeds the cap or the billed room type outranks the eligible one;
`within_cap` when rate, cap and billed type are known and neither holds;
`unknown` otherwise. -/
def roomStatusOf (p : Policy) (f : BillFacts) : RoomStatus :=
  let overRate :=
    match f.rate_per_day, p.cap_per_day with
    | some r, some c => decide (c < r)
    | _, _ => false
  let overRank :=
    match f.billed_type with
    | some b => decide (p.room_type.rank < b.rank)
    | none => false
  if overRate || overRank then RoomStatus.over_limit
  else if f.rate_per_day.isSome && p.cap_per_day.isSome && f.billed_type.isSome then
    RoomStatus.within_cap
  else RoomStatus.unknown

/-- Modelled from the spec, section 4.3 step 4: the proportionate factor
`min(1, cap / rate)`, applied only when the policy enables proportionate
deduction, the room is over limit and both rates are resolved; `1`
otherwise. -/
def propFactor (p : Policy) (f : BillFacts) : ℚ :=
  match f.rate_per_day, p.cap_per_day with
  | some r, some c =>
    if p.proportionate_deduction = true ∧ roomStatusOf p f = RoomStatus.over_limit then
      min 1 (c / r)
    else 1
  | _, _ => 1

/-- Modelled from the spec, section 4.3 steps 5-7: subtotal of the payable
parts, with unresolved room rent contributing 0. -/
def subtotalOf (p : Policy) (f : BillFacts) : ℚ :=
  (room_rent_payable p f).getD 0 + sumAmounts f.fixed_items
    + propFactor p f * sumAmounts f.other_charges

/-- Modelled from the spec, section 4.3 steps 8-9: co-pay applied to the
subtotal, then the sum-insured ceiling. -/
def insurer_pays_best_of (p : Policy) (f : BillFacts) : ℚ :=
  let pre :=
    match p.co_pay_pct with
    | some cp => subtotalOf p f * (1 - cp / 100)
    | none => subtotalOf p f
  match p.sum_insured with
  | some si => min pre si
  | none => pre

/-- Modelled from the spec, section 4.3 (steps 1-11): the adjudication
result; step 10's range is the plus/minus band around the best estimate, and
step 11 computes the patient share only when the total bill is resolved. -/
def adjudicate (p : Policy) (f : BillFacts) : AdjudicationResult :=
  let best := insurer_pays_best_of p f
  let extra := extra_room_cost_of p f
  let patient : Option ℚ := f.total_bill.map fun t =>
    t - best + extra.getD 0 + sumAmounts f.non_payables
  ⟨best, best * (9 / 10), best * (21 / 20), patient, roomStatusOf p f, extra⟩

/-- Modelled from the spec: the timeline verdict modes (spec section 3). -/
inductive TimelineMode
  | hours_remaining
  | completion_passed
  | unavailable
deriving DecidableEq

/-- Modelled from the spec: the TimelineResult record (spec section 3);
times in minutes since the epoch. -/
structure TimelineResult where
  mode : TimelineMode
  hours_remaining : Option ℤ
  completion_at : Option ℤ
deriving DecidableEq

/-- First maximal digit run of a character list, as a number. -/
def firstNatTok : List Char → Option Nat
  | [] => none
  | c :: rest =>
    if c.isDigit then some (digitsToNat ((c :: rest).takeWhile Char.isDigit))
    else firstNatTok rest

/-- Modelled from the spec, section 4.4 step 1: `approval_days` is the first
integer found in the policy's `approval_time` text, qualifying words (such as
`business`) ignored. -/
def parse_approval_days (s : String) : Option Nat := firstNatTok s.data

/-- Round half up to an integer: the floor of `q + 1/2`, built with `mkRat`
on numerator and denominator so the kernel can evaluate it. -/
def roundHalfUp (q : ℚ) : ℤ := ⌊mkRat (2 * q.num + q.den) (2 * q.den)⌋

/-- Minutes-in-hours value of a minute count, as an exact rational. -/
def minutesToHours (m : ℤ) : ℚ := mkRat m 60

/-- Modelled from the spec, section 4.4: completion is the discharge time
plus `approval_days` calendar days (1440 minutes each, the `business`
qualifier deliberately ignored); `unavailable` when either input is missing,
`hours_remaining` with the rounded hour count while completion is in the
future, `completion_passed` otherwise. -/
def estimate (approval_time : String) (discharge_at : Option ℤ) (now : ℤ) : TimelineResult :=
  match parse_approval_days approval_time, discharge_at with
  | some ad, some disch =>
    let completion : ℤ := disch + ad * 1440
    if now < completion then
      ⟨TimelineMode.hours_remaining, some (roundHalfUp (minutesToHours (completion - now))),
        some completion⟩
    else ⟨TimelineMode.completion_passed, none, some completion⟩
  | _, _ => ⟨TimelineMode.unavailable, none, none⟩

/-- Day number of a Gregorian calendar date counted from 1970-01-01 (the
standard civil-from-days correspondence). -/
def daysFromCivil (y : ℤ) (m d : ℕ) : ℤ :=
  let y' : ℤ := if m ≤ 2 then y - 1 else y
  let era : ℤ := (if 0 ≤ y' then y' else y' - 399) / 400
  let yoe : ℤ := y' - era * 400
  let mp : ℕ := (m + 9) % 12
  let doy : ℤ := ((153 * mp + 2) / 5 + d : ℕ) - 1
  let doe : ℤ := yoe * 365 + yoe / 4 - yoe / 100 + doy
  era * 146097 + doe - 719468

/-- Minutes since the epoch of a civil date and time. -/
def dtMinutes (y : ℤ) (m d h mi : ℕ) : ℤ := daysFromCivil y m d * 1440 + h * 60 + mi

/-- Head-of-history test used by `chat_with_history`'s branch: is there a
leading system message? -/
def headIsSystem : List Msg → Bool
  | [] => false
  | m :: _ => m.role == "system"

/-- A concrete policy for the witnesses: shared room eligibility, cap 1500
per day, proportionate deduction on, 10 percent co-pay, sum insured 100000. -/
def samplePolicy : Policy :=
  ⟨RoomType.shared, some 1500, true, some 10, some 100000, "2 business days", ["consumables"]⟩

/-- Concrete bill facts for the witnesses: single private room at 2000 for 3
days, total bill 50000, some fixed and other charges and one non-payable. -/
def sampleFacts : BillFacts :=
  ⟨some "Ravi", some 50000, some RoomType.single_private, some 2000, some 3,
    [("medicines", 8000)], [("nursing", 4000)], [("consumables", 500)],
    some (dtMinutes 2025 1 10 9 0)⟩

/-- Searching a list from the right for the first hit of `f` is the same as
taking the last hit of `f` over the whole list. -/
theorem reverse_findSome?_eq_getLast? {α β : Type} (l : List α) (f : α → Option β) :
    l.reverse.findSome? f = ((l.filter fun a => (f a).isSome).getLast?).bind f := by
  induction l using List.reverseRecOn with
  | nil => rfl
  | append_singleton l a ih =>
    rw [List.reverse_append, List.reverse_singleton, List.singleton_append,
      List.findSome?_cons, List.filter_append]
    cases h : f a with
    | some b =>
      have hs : (f a).isSome = true := by rw [h]; rfl
      simp [List.filter_cons, hs, List.getLast?_append, h]
    | none =>
      have hs : (f a).isSome = false := by rw [h]; rfl
      simp [List.filter_cons, hs, ih]

/-- On any line, the guarded extraction of `parse_total_amount`'s inner loop
is `some` exactly when the pattern matches and the line has a numeric token. -/
theorem guard_lastNum_isSome (pat : List Char → Bool) (ln : List Char) :
    (if pat ln then lastNum ln else none).isSome
      = (pat ln && !(findNums ln).isEmpty) := by
  by_cases h : pat ln
  · simp only [h, if_true, Bool.true_and, lastNum, Option.isSome_map]
    cases hn : findNums ln with
    | nil => rfl
    | cons x xs => simp [List.getLast?_concat, List.getLast?]
  · simp [h]

/-- The reversed inner loop of `parse_total_amount` computes, for one
pattern, the spec's last matching line's last numeric token. -/
theorem findSome?_rev_eq_lastMatching (pat : List Char → Bool) (lines : List (List Char)) :
    lines.reverse.findSome? (fun ln => if pat ln then lastNum ln else none)
      = (lastMatchingLine pat lines).bind lastNum := by
  unfold lastMatchingLine
  rw [reverse_findSome?_eq_getLast?]
  have hp : lines.filter (fun a => (if pat a then lastNum a else none).isSome)
      = lines.filter (fun ln => pat ln && !(findNums ln).isEmpty) := by
    apply List.filter_congr
    intro ln _
    rw [guard_lastNum_isSome]
  rw [hp]
  cases hl : (lines.filter (fun ln => pat ln && !(findNums ln).isEmpty)).getLast? with
  | none => rfl
  | some ln =>
    have hmem : ln ∈ lines.filter (fun ln => pat ln && !(findNums ln).isEmpty) :=
      List.mem_of_mem_getLast? (Option.mem_def.mpr hl)
    have hpat : pat ln && !(findNums ln).isEmpty := (List.mem_filter.mp hmem).2
    simp only [Option.some_bind]
    rw [if_pos (by exact (Bool.and_elim_left hpat))]

/-- The source's reversed line walk coincides with the spec's
last-matching-line description, pattern by pattern. -/
theorem parse_total_amount_eq_spec (text : String) :
    parse_total_amount text = parse_total_amount_spec text := by
  unfold parse_total_amount parse_total_amount_spec
  exact congrArg (fun f => List.findSome? f totalPatterns)
    (funext fun pat => findSome?_rev_eq_lastMatching pat _)

/-- `qadd` agrees with rational addition. -/
theorem qadd_eq (a b : ℚ) : qadd a b = a + b := by
  unfold qadd
  rw [Rat.mkRat_eq_div]
  have ha : ((a.den : ℚ)) ≠ 0 := by
    exact_mod_cast a.den_nz
  have hb : ((b.den : ℚ)) ≠ 0 := by
    exact_mod_cast b.den_nz
  push_cast
  conv_rhs => rw [← Rat.num_div_den a, ← Rat.num_div_den b]
  rw [div_add_div _ _ ha hb]
  ring_nf

/-- `qsum` is the fold of `+` the claims speak about. -/
theorem qsum_eq (l : List (String × ℚ)) : qsum l = l.foldl (fun a p => a + p.2) 0 := by
  have h : (fun (a : ℚ) (p : String × ℚ) => qadd a p.2) = fun a p => a + p.2 := by
    funext a p
    exact qadd_eq a p.2
  unfold qsum
  rw [h]

/-- A literal keyword compiles to its literal token list. -/
theorem kwToks_literal (kw : String) (h : literalKw kw = true) :
    kwToks kw = kw.data.map fun c => KwTok.lit c.toLower := by
  unfold kwToks
  apply List.map_congr_left
  intro c hc
  have hcw : isWordChar c || c = ' ' := List.all_eq_true.mp h c hc
  have hcd : c ≠ '.' := by
    intro e
    subst e
    exact absurd hcw (by decide)
  rw [if_neg hcd]

/-- A literal keyword is inside the modelled fragment and never a compile
error. -/
theorem kwClass_literal (kw : String) (h : literalKw kw = true) :
    kwClass kw = KwClass.pat (kw.data.map fun c => KwTok.lit c.toLower) := by
  unfold kwClass
  rw [if_pos, kwToks_literal kw h]
  rw [List.all_eq_true]
  intro c hc
  have hcw : isWordChar c || c = ' ' := List.all_eq_true.mp h c hc
  rcases Bool.or_eq_true_iff.mp hcw with h1 | h1
  · simp [h1]
  · simp [h1]

/-- With only literal keywords, the keyword loop returns its hits normally,
and they are exactly the spec's items. -/
theorem npCollect_literal (lines : List String) (kws : List String)
    (h : ∀ kw ∈ kws, literalKw kw = true) :
    npCollect lines kws
      = NPCollect.hits (kws.flatMap fun kw =>
          npLineHits kw (kw.data.map fun c => KwTok.lit c.toLower) lines) := by
  induction kws with
  | nil => rfl
  | cons kw kws ih =>
    have hk : literalKw kw = true := h kw (List.mem_cons_self kw kws)
    have hrest : ∀ k ∈ kws, literalKw k = true := fun k hm => h k (List.mem_cons_of_mem kw hm)
    rw [npCollect, kwClass_literal kw hk, ih hrest, List.flatMap_cons]

/-- With only literal keywords, `sum_non_payables` returns normally with the
spec's items and their sum as the total. -/
theorem sum_non_payables_literal (text : String) (kws : List String)
    (h : ∀ kw ∈ kws, literalKw kw = true) :
    sum_non_payables text kws
      = NPResult.ok (qsum (npSpecItems text kws)) (npSpecItems text kws) := by
  unfold sum_non_payables
  simp only []
  rw [npCollect_literal (pySplitlines text) kws h]
  rfl

/-- C1, counterexample to the claim as stated: the source's multi-word
patterns are plain substring searches, not whole-word matches. On
`"internet payable 99"` the code's `net\s*payable` fires inside the word
`internet` and returns 99, while a whole-word reading of the same priority
list (`parse_total_amount_ww`) matches nothing. -/
theorem C1_counterexample :
    parse_total_amount "internet payable 99" = some 99
      ∧ parse_total_amount_ww "internet payable 99" = none := by
  constructor
  · decide
  · decide

/-- C1, amended: total-amount extraction tries the patterns in the fixed
priority order net payable > amount payable > grand total > total, where the
three two-word patterns match as substrings with optional whitespace between
the words (only the bare `total` is whole-word anchored); among lines
matching a pattern, the last line in the text that also carries a numeric
token wins, and its last numeric token (digits with an optional 1-2 digit
fraction) is the amount; the text `"Room: 1000\nGrand Total: 12345.00 INR"`
yields 12345.00, and with two `Total` lines the later one wins. -/
theorem C1_amended :
    (∀ text : String, parse_total_amount text = parse_total_amount_spec text)
      ∧ parse_total_amount "Room: 1000\nGrand Total: 12345.00 INR" = some 12345
      ∧ parse_total_amount "Total: 100\nTotal: 200" = some 200 := by
  refine ⟨parse_total_amount_eq_spec, ?_, ?_⟩
  · decide
  · decide

/-- C2, counterexample to the claim as stated: the keyword is interpolated
into the regex unescaped, so `.` acts as a wildcard rather than a literal;
with keyword `"a.c"` on text `"axc 5"` the code records the item
`("a.c", 5)` although the line contains no whole-word occurrence of the
keyword. -/
theorem C2_counterexample :
    sum_non_payables "axc 5" ["a.c"] = NPResult.ok 5 [("a.c", 5)]
      ∧ wwKwContains "a.c" "axc 5".data = false := by
  constructor
  · decide
  · decide

/-- C2, amended: for keywords built from word characters and spaces (so that
the interpolated pattern means a literal whole-word match), `sum_non_payables`
returns one item per keyword and per line containing a whole-word
case-insensitive match of it that also carries a numeric token, valued at the
line's last numeric token, in keyword iteration order, with the total equal
to the sum of the item amounts; a matching line without a numeric token
yields no item, and keywords containing regex metacharacters are interpreted
as regex syntax instead. -/
theorem C2_amended (text : String) (kws : List String)
    (h : ∀ kw ∈ kws, literalKw kw = true) :
    sum_non_payables text kws
        = NPResult.ok (qsum (npSpecItems text kws)) (npSpecItems text kws)
      ∧ qsum (npSpecItems text kws)
        = (npSpecItems text kws).foldl (fun a p => a + p.2) 0 :=
  ⟨sum_non_payables_literal text kws h, qsum_eq (npSpecItems text kws)⟩

/-- C2, witness: the amended claim at the spec's own example, two literal
keywords with one matching line each. -/
theorem C2_witness :
    sum_non_payables "consumables 500\nregistration_fee 300"
        ["consumables", "registration_fee"]
      = NPResult.ok
          (qsum (npSpecItems "consumables 500\nregistration_fee 300"
            ["consumables", "registration_fee"]))
          (npSpecItems "consumables 500\nregistration_fee 300"
            ["consumables", "registration_fee"])
      ∧ qsum (npSpecItems "consumables 500\nregistration_fee 300"
            ["consumables", "registration_fee"])
        = (npSpecItems "consumables 500\nregistration_fee 300"
            ["consumables", "registration_fee"]).foldl (fun a p => a + p.2) 0 :=
  C2_amended "consumables 500\nregistration_fee 300" ["consumables", "registration_fee"]
    (by decide)

/-- C2, concrete values at the witness input: the example's total 800 and its
two items in keyword order. -/
theorem C2_example_values :
    sum_non_payables "consumables 500\nregistration_fee 300"
        ["consumables", "registration_fee"]
      = NPResult.ok 800 [("consumables", 500), ("registration_fee", 300)] := by
  decide

/-- C3, counterexample to the claim as stated: with the keyword `"("` and a
non-empty text, the interpolated pattern `\b(\b` fails to compile and
`re.search` raises `re.error` out of `sum_non_payables` (modelled by the
`exc` outcome), so the function does not return normally for every keyword
list. -/
theorem C3_counterexample : sum_non_payables "x" ["("] = NPResult.exc := by decide

/-- C3, amended: `parse_total_amount` never raises for any text and yields
`none` when nothing matches; `sum_non_payables` returns normally — with an
empty item list and zero total when nothing matches — for every text as long
as each keyword consists of word characters and spaces; a keyword containing
regex syntax (such as an unbalanced parenthesis) can instead raise a pattern
compile error. -/
theorem C3_amended :
    (∀ (text : String) (kws : List String), (∀ kw ∈ kws, literalKw kw = true) →
      ∃ t items, sum_non_payables text kws = NPResult.ok t items)
      ∧ (∀ kws : List String, (∀ kw ∈ kws, literalKw kw = true) →
          sum_non_payables "" kws = NPResult.ok 0 [])
      ∧ parse_total_amount "" = none := by
  refine ⟨?_, ?_, by decide⟩
  · intro text kws h
    exact ⟨qsum (npSpecItems text kws), npSpecItems text kws,
      sum_non_payables_literal text kws h⟩
  · intro kws h
    rw [sum_non_payables_literal "" kws h]
    have hitems : npSpecItems "" kws = [] := by
      unfold npSpecItems
      have : ∀ kw : String, (pySplitlines "").filterMap (fun ln =>
          if wwKwContains kw ln.data then (lastNum ln.data).map fun q => (kw, q) else none)
            = [] := fun kw => rfl
      simp [List.flatMap, this]
    rw [hitems]
    rfl

/-- C3, witness: the amended claim instantiated at a literal keyword list and
a text with no matches. -/
theorem C3_witness :
    ∃ t items, sum_non_payables "room 1000" ["consumables"] = NPResult.ok t items :=
  C3_amended.1 "room 1000" ["consumables"] (by decide)

/-- C4, counterexample to the claim as stated: `chat_with_history` reads the
clock itself (`datetime.now()` inside the function body) and embeds it in the
system message, so with every claim-level input held fixed — same policy,
bill text, history and user input, and the same deterministic model
function — two runs under different clock readings produce different
replies: the time is a hidden input, not an explicit parameter. -/
theorem C4_counterexample :
    (chat_with_history echoHeadClient [] "p" "b" "u" "2025-01-01T00:00:00").1
      ≠ (chat_with_history echoHeadClient [] "p" "b" "u" "2025-01-02T00:00:00").1 := by
  decide

/-- C4, amended: the engine run by `chat_with_history` is deterministic only
relative to the clock reading and the model's reply function, which are
implicit inputs read inside the function rather than parameters; with those
fixed, the output is a pure function of the remaining inputs, and in
particular the prior content of a leading system message cannot influence the
result (it is overwritten before the model is invoked). -/
theorem C4_amended (invoke : List Msg → String) (rest : List Msg)
    (policyJson billText userInput nowIso s1 s2 : String) :
    chat_with_history invoke (⟨"system", s1⟩ :: rest) policyJson billText userInput nowIso
      = chat_with_history invoke (⟨"system", s2⟩ :: rest) policyJson billText userInput nowIso := by
  unfold chat_with_history
  simp

/-- C10: `chat_with_history` rewrites the caller's history in place: the
returned history is the system message (installed at index 0, overwriting a
leading system entry or being prepended) followed by the remaining prior
messages and exactly two appended entries, the user message and the
assistant reply; so the history grows by two entries when it already led
with a system message and by three otherwise, and its last element carries
the returned reply. The `policy` and `bill_text` arguments are never
written. -/
theorem C10_history_mutation (invoke : List Msg → String) (history : List Msg)
    (policyJson billText userInput nowIso : String) :
    (chat_with_history invoke history policyJson billText userInput nowIso).2
        = ⟨"system", systemMessage policyJson billText nowIso⟩ ::
            ((if headIsSystem history then history.tail else history)
              ++ [⟨"user", userInput⟩,
                  ⟨"assistant",
                    (chat_with_history invoke history policyJson billText userInput nowIso).1⟩])
      ∧ (chat_with_history invoke history policyJson billText userInput nowIso).2.length
        = history.length + (if headIsSystem history then 2 else 3)
      ∧ (chat_with_history invoke history policyJson billText userInput nowIso).2.getLast?
        = some ⟨"assistant",
            (chat_with_history invoke history policyJson billText userInput nowIso).1⟩ := by
  cases history with
  | nil =>
    exact ⟨rfl, rfl, rfl⟩
  | cons m rest =>
    by_cases hm : m.role = "system"
    · have hh : headIsSystem (m :: rest) = true := by
        simp [headIsSystem, hm]
      unfold chat_with_history
      simp [hm, hh, List.length_append]
      rw [← List.cons_append, List.getLast?_append_of_ne_nil _ (by simp)]
      rfl
    · have hh : headIsSystem (m :: rest) = false := by
        simp [headIsSystem, hm]
      unfold chat_with_history
      simp [hm, hh, List.length_append]
      rw [← List.cons_append, List.getLast?_append_of_ne_nil _ (by simp)]
      rfl

/-- C9: once a call to `get_policy` has succeeded, the policy mapping is
cached; every later call returns the cached data loaded from the first path,
whatever path is passed, and performs no further file read — the file is
read exactly once. -/
theorem C9_policy_cache {α : Type} (fs : String → Option α) (q p : String) (d : α)
    (h : fs q = some d) :
    (get_policy fs ⟨none, 0⟩ q).1 = some d
      ∧ (get_policy fs ⟨none, 0⟩ q).2.reads = 1
      ∧ (get_policy fs (get_policy fs ⟨none, 0⟩ q).2 p).1 = some d
      ∧ (get_policy fs (get_policy fs ⟨none, 0⟩ q).2 p).2
        = (get_policy fs ⟨none, 0⟩ q).2 := by
  simp [get_policy, load_policy_data, h]

/-- C9, witness: a file system with the policy at `policy.json`; the second
call passes a different path and still gets the cached data with no new
read. -/
theorem C9_witness :
    ((fun _ : String => some 7) "policy.json" = some 7)
      ∧ ((get_policy (fun _ : String => some 7) ⟨none, 0⟩ "policy.json").1 = some 7
        ∧ (get_policy (fun _ : String => some 7) ⟨none, 0⟩ "policy.json").2.reads = 1
        ∧ (get_policy (fun _ : String => some 7)
            (get_policy (fun _ : String => some 7) ⟨none, 0⟩ "policy.json").2 "other.json").1
          = some 7
        ∧ (get_policy (fun _ : String => some 7)
            (get_policy (fun _ : String => some 7) ⟨none, 0⟩ "policy.json").2 "other.json").2
          = (get_policy (fun _ : String => some 7) ⟨none, 0⟩ "policy.json").2) :=
  ⟨rfl, C9_policy_cache (fun _ => some 7) "policy.json" "other.json" 7 rfl⟩

/-- C5: adjudication applies the co-pay to the subtotal first and the
sum-insured ceiling second — `insurer_pays_best` is
`subtotal * (1 - co_pay_pct/100)` when a co-pay is present (the subtotal
otherwise), capped by `min` with `sum_insured` when present — so the best
estimate never exceeds the sum insured when one is set. -/
theorem C5_copay_then_cap (p : Policy) (f : BillFacts) :
    ((adjudicate p f).insurer_pays_best
      = match p.sum_insured with
        | some si =>
          min (match p.co_pay_pct with
               | some cp => subtotalOf p f * (1 - cp / 100)
               | none => subtotalOf p f) si
        | none =>
          match p.co_pay_pct with
          | some cp => subtotalOf p f * (1 - cp / 100)
          | none => subtotalOf p f)
    ∧ ∀ si, p.sum_insured = some si → (adjudicate p f).insurer_pays_best ≤ si := by
  constructor
  · rfl
  · intro si h
    show insurer_pays_best_of p f ≤ si
    unfold insurer_pays_best_of
    rw [h]
    exact min_le_right _ _

/-- C5, witness: at the sample policy the sum insured is set and the best
estimate is bounded by it. -/
theorem C5_witness :
    samplePolicy.sum_insured = some 100000
      ∧ (adjudicate samplePolicy sampleFacts).insurer_pays_best ≤ 100000 :=
  ⟨rfl, (C5_copay_then_cap samplePolicy sampleFacts).2 100000 rfl⟩

/-- C6: with rate, cap, billed type and days all resolved, the room status is
`over_limit` exactly when the rate exceeds the cap or the billed type
outranks the eligible type in the order shared < single_private < any_room,
is `within_cap` exactly otherwise (never `unknown`), and whenever the rate
exceeds the cap the extra room cost is `(rate - cap) * days`. -/
theorem C6_room_status (p : Policy) (f : BillFacts) (r c : ℚ) (b : RoomType) (d : ℕ)
    (hr : f.rate_per_day = some r) (hc : p.cap_per_day = some c)
    (hb : f.billed_type = some b) (hd : f.days = some d) :
    ((adjudicate p f).room_status = RoomStatus.over_limit
        ↔ (c < r ∨ p.room_type.rank < b.rank))
      ∧ ((adjudicate p f).room_status = RoomStatus.within_cap
        ↔ ¬(c < r ∨ p.room_type.rank < b.rank))
      ∧ (adjudicate p f).room_status ≠ RoomStatus.unknown
      ∧ (c < r → (adjudicate p f).extra_room_cost = some ((r - c) * d)) := by
  have hs : (adjudicate p f).room_status
      = if c < r ∨ p.room_type.rank < b.rank then RoomStatus.over_limit
        else RoomStatus.within_cap := by
    show roomStatusOf p f = _
    unfold roomStatusOf
    rw [hr, hc, hb]
    by_cases h1 : c < r <;> by_cases h2 : p.room_type.rank < b.rank <;>
      simp [h1, h2]
  refine ⟨?_, ?_, ?_, ?_⟩
  · rw [hs]
    by_cases h : c < r ∨ p.room_type.rank < b.rank
    · simp [h]
    · simp [h]
  · rw [hs]
    by_cases h : c < r ∨ p.room_type.rank < b.rank
    · simp [h]
    · simp [h]
  · rw [hs]
    by_cases h : c < r ∨ p.room_type.rank < b.rank
    · simp [h]
    · simp [h]
  · intro hlt
    show extra_room_cost_of p f = _
    unfold extra_room_cost_of
    rw [hr, hc, hd]
    show some (max 0 (r - c) * (d : ℚ)) = some ((r - c) * (d : ℚ))
    rw [max_eq_right (sub_nonneg.mpr (le_of_lt hlt))]

/-- C6, witness: the sample bill (rate 2000 over cap 1500, single private
over shared, 3 days) is over limit with extra room cost 1500. -/
theorem C6_witness :
    sampleFacts.rate_per_day = some 2000
      ∧ samplePolicy.cap_per_day = some 1500
      ∧ sampleFacts.billed_type = some RoomType.single_private
      ∧ sampleFacts.days = some 3
      ∧ (((adjudicate samplePolicy sampleFacts).room_status = RoomStatus.over_limit
            ↔ ((1500 : ℚ) < 2000 ∨ samplePolicy.room_type.rank < RoomType.single_private.rank))
        ∧ ((adjudicate samplePolicy sampleFacts).room_status = RoomStatus.within_cap
            ↔ ¬((1500 : ℚ) < 2000 ∨ samplePolicy.room_type.rank < RoomType.single_private.rank))
        ∧ (adjudicate samplePolicy sampleFacts).room_status ≠ RoomStatus.unknown
        ∧ ((1500 : ℚ) < 2000 →
            (adjudicate samplePolicy sampleFacts).extra_room_cost
              = some (((2000 : ℚ) - 1500) * 3))) :=
  ⟨rfl, rfl, rfl, rfl,
    C6_room_status samplePolicy sampleFacts 2000 1500 RoomType.single_private 3
      rfl rfl rfl rfl⟩

/-- C7: the timeline estimator takes `approval_days` as the first integer in
the policy's approval-time text (qualifiers such as `business` ignored),
computes completion as discharge plus that many calendar days, and while
completion lies in the future reports mode `hours_remaining` with the
half-up-rounded hour count; in particular discharge 2025-01-10 09:00 with
`"2 business days"` and now 2025-01-11 09:00 gives completion
2025-01-12 09:00 and 24 hours remaining. -/
theorem C7_timeline :
    (∀ (s : String) (ad : ℕ) (disch now : ℤ), parse_approval_days s = some ad →
      (estimate s (some disch) now).completion_at = some (disch + ad * 1440)
        ∧ (now < disch + ad * 1440 →
            (estimate s (some disch) now).mode = TimelineMode.hours_remaining
              ∧ (estimate s (some disch) now).hours_remaining
                = some (roundHalfUp (minutesToHours (disch + ad * 1440 - now)))))
      ∧ parse_approval_days "2 business days" = some 2
      ∧ estimate "2 business days" (some (dtMinutes 2025 1 10 9 0)) (dtMinutes 2025 1 11 9 0)
        = ⟨TimelineMode.hours_remaining, some 24, some (dtMinutes 2025 1 12 9 0)⟩
      ∧ dtMinutes 2025 1 12 9 0 = dtMinutes 2025 1 10 9 0 + 2 * 1440 := by
  refine ⟨?_, by decide, by decide, by decide⟩
  intro s ad disch now hp
  by_cases h : now < disch + ad * 1440
  · simp [estimate, hp, h]
  · simp [estimate, hp, h]

/-- C7, witness: the general statement applied at the spec's example. -/
theorem C7_witness :
    parse_approval_days "2 business days" = some 2
      ∧ ((estimate "2 business days" (some (dtMinutes 2025 1 10 9 0))
            (dtMinutes 2025 1 11 9 0)).completion_at
          = some (dtMinutes 2025 1 10 9 0 + 2 * 1440)
        ∧ (dtMinutes 2025 1 11 9 0 < dtMinutes 2025 1 10 9 0 + 2 * 1440 →
            (estimate "2 business days" (some (dtMinutes 2025 1 10 9 0))
                (dtMinutes 2025 1 11 9 0)).mode = TimelineMode.hours_remaining
              ∧ (estimate "2 business days" (some (dtMinutes 2025 1 10 9 0))
                  (dtMinutes 2025 1 11 9 0)).hours_remaining
                = some (roundHalfUp (minutesToHours
                    (dtMinutes 2025 1 10 9 0 + 2 * 1440 - dtMinutes 2025 1 11 9 0))))) :=
  ⟨by decide, C7_timeline.1 "2 business days" 2 (dtMinutes 2025 1 10 9 0)
    (dtMinutes 2025 1 11 9 0) (by decide)⟩

/-- C8: whenever the total bill is resolved, the patient share is the total
bill minus the insurer's best estimate, plus the separately tracked extra
room cost (zero when untracked) and the sum of the non-payables; when the
total bill is unresolved the patient share is unresolved too. -/
theorem C8_patient_pays (p : Policy) (f : BillFacts) :
    (∀ t, f.total_bill = some t →
        (adjudicate p f).patient_pays
          = some (t - (adjudicate p f).insurer_pays_best
              + ((adjudicate p f).extra_room_cost).getD 0 + sumAmounts f.non_payables))
      ∧ (f.total_bill = none → (adjudicate p f).patient_pays = none) := by
  constructor
  · intro t ht
    show (f.total_bill.map _) = _
    rw [ht]
    rfl
  · intro ht
    show (f.total_bill.map _) = _
    rw [ht]
    rfl

/-- C8, witness: the sample bill has a resolved total of 50000 and the
patient share is computed from it by the stated formula. -/
theorem C8_witness :
    sampleFacts.total_bill = some 50000
      ∧ (adjudicate samplePolicy sampleFacts).patient_pays
        = some ((50000 : ℚ) - (adjudicate samplePolicy sampleFacts).insurer_pays_best
            + ((adjudicate samplePolicy sampleFacts).extra_room_cost).getD 0
            + sumAmounts sampleFacts.non_payables) :=
  ⟨rfl, (C8_patient_pays samplePolicy sampleFacts).1 50000 rfl⟩
